import Mathlib

/-!
Verification development for the Craigslist listing monitor.

The repository ships two implementations of the same bot: `craigslist_bot.go`
(Go) and `main.js` (node). Both follow the cycle
fetch → extract → insert/notify → expire → delay. This file embeds the pure
logic of both variants: text is modelled as `List Char`; the SQLite table
`listings` is modelled as a list of rows with a unique `listing_url` key, and
the `INSERT ... ON CONFLICT(listing_url) DO NOTHING` statement as a
presence-checked append that reports the number of changed rows; HTML elements
matching `li.cl-search-result` are modelled by the four pieces of data the
extractors read from them.
-/

namespace Craigslist

/-- Text is modelled at the character level, since the source's string
operations (split, trim, lower-casing) are what the claims are about. -/
abbrev Str := List Char

/-- Model of `strings.ToLower` / `String.prototype.toLowerCase` (ASCII range,
which is all the source compares against). -/
def lowerStr (s : Str) : Str := s.map Char.toLower

/-- Model of `strings.TrimSpace` / `String.prototype.trim`: drop whitespace
from both ends. -/
def trimStr (s : Str) : Str :=
  ((s.dropWhile Char.isWhitespace).reverse.dropWhile Char.isWhitespace).reverse

/-- Model of `strings.Split(s, sep)` / `s.split(sep)` for a one-character
separator (both sources use a single-character separator). As in Go and JS,
the result is always non-empty: splitting the empty string yields `[[]]`. -/
def splitCh (sep : Char) : List Char → List (List Char)
  | [] => [[]]
  | c :: cs =>
    match splitCh sep cs with
    | [] => [[]]
    | p :: ps => if c = sep then [] :: p :: ps else (c :: p) :: ps

/-- One markup element matching `li.cl-search-result`, holding exactly the
data the extractors read: the `title` attribute (absent when the attribute is
missing), the first anchor's `href` (absent when there is no anchor or it has
no `href`), the text of the `.priceinfo` child and the text of the `.meta`
child (absent when the child is missing; Go's `Find(...).Text()` yields the
empty string in that case). -/
structure Element where
  titleAttr : Option Str
  href : Option Str
  priceText : Option Str
  metaText : Option Str
deriving DecidableEq

/-- The Go `Listing` struct: `Title`, `Price`, `City`, `Posted time.Time`
(modelled as an integer timestamp in seconds), `ListingURL`. -/
structure ListingGo where
  title : Str
  price : Str
  city : Str
  posted : Int
  listingURL : Str
deriving DecidableEq

/-- The record built by the JS scraper: `posted` is the raw relative-time
text taken from the page, a string. -/
structure ListingJS where
  title : Str
  price : Str
  city : Str
  posted : Str
  listing_url : Str
deriving DecidableEq

/-- A row of the `listings` table. The JS schema declares
`notified BOOLEAN DEFAULT 0`; the Go schema omits that column, which this
model renders as the column never leaving its default. -/
structure Row where
  title : Str
  price : Str
  city : Str
  posted : Int
  listingURL : Str
  notified : Bool
deriving DecidableEq

/-- A row of the JS `listings` table, whose `posted` column receives the raw
relative-time string scraped from the page. -/
structure RowJS where
  title : Str
  price : Str
  city : Str
  posted : Str
  listing_url : Str
  notified : Bool
deriving DecidableEq

/-- The row created for a freshly inserted Go listing (`notified` at its
schema default). -/
def rowOfGo (l : ListingGo) : Row :=
  { title := l.title, price := l.price, city := l.city, posted := l.posted,
    listingURL := l.listingURL, notified := false }

/-- The row created for a freshly inserted JS listing. -/
def rowOfJS (l : ListingJS) : RowJS :=
  { title := l.title, price := l.price, city := l.city, posted := l.posted,
    listing_url := l.listing_url, notified := false }

/-- Go `insertListing` (and the SQL statement shared with JS):
`INSERT ... ON CONFLICT(listing_url) DO NOTHING`. Returns the updated table
together with the number of rows changed (`1` when the URL was new, `0` when
the conflict clause suppressed the insert). -/
def insertListing (db : List Row) (l : ListingGo) : List Row × Nat :=
  if l.listingURL ∈ db.map Row.listingURL then (db, 0)
  else (db ++ [rowOfGo l], 1)

/-- Go / JS `deleteOldListings`: `DELETE FROM listings WHERE posted <
datetime('now', '-1 hour')`; the surviving table keeps exactly the rows not
older than one hour (3600 seconds) before `now`. -/
def deleteOldListings (now : Int) (db : List Row) : List Row :=
  db.filter (fun r => !decide (r.posted < now - 3600))

/-- JS `markAsNotified`: `UPDATE listings SET notified = 1 WHERE
listing_url = ?`. -/
def markAsNotified (db : List RowJS) (url : Str) : List RowJS :=
  db.map (fun r => if r.listing_url = url then { r with notified := true } else r)

/-- The notify-worthiness test of the Go loop:
`strings.ToLower(listing.Price) == "free" || listing.Price == "" ||
listing.Price == "()"`. -/
def priceQualifiesGo (p : Str) : Bool :=
  decide (lowerStr p = "free".data) || decide (p = []) || decide (p = "()".data)

/-- The notify-worthiness test of JS `insertListing`:
`!price || price.toLowerCase() === 'free' || price === '()'`. -/
def priceQualifiesJS (p : Str) : Bool :=
  decide (p = []) || decide (lowerStr p = "free".data) || decide (p = "()".data)

/-- An HTTP POST to the push endpoint, as assembled by either
`sendNotification`: endpoint URL, body, `Title` header, `Priority` header and
the optional `Actions` header. -/
structure PushRequest where
  endpoint : Str
  body : Str
  titleHeader : Str
  priority : Str
  actions : Option Str
deriving DecidableEq

/-- The message the Go loop passes to `sendNotification`:
`fmt.Sprintf("New free or unknown price listing! %s (%s) %s", ...)`. -/
def goMessage (l : ListingGo) : Str :=
  "New free or unknown price listing! ".data ++ l.title ++ " (".data ++
    l.price ++ ") ".data ++ l.city

/-- Go `sendNotification`: one POST to `https://ntfy.sh/charlottecraig` with
headers `Title: Craigslist Alert` and `Priority: high` and no action
buttons. -/
def sendNotificationGo (message : Str) : PushRequest :=
  { endpoint := "https://ntfy.sh/charlottecraig".data
    body := message
    titleHeader := "Craigslist Alert".data
    priority := "high".data
    actions := none }

/-- Go `sendNotification`'s response handling: a non-200 status code is
logged with `Printf`; a 200 logs the sent message. Nothing else happens in
either case. -/
def handleResponseGo (status : Nat) (message : Str) : Str :=
  if status ≠ 200 then
    "Failed to send notification: Status code ".data ++ (Nat.repr status).data
  else
    "Notification sent: ".data ++ message

/-- JS `sendNotification`: builds the body from the template
`${title} (${price || 'Unknown Price'}) ${city}` and POSTs it with headers
`Title`, `Priority: high` and an `Actions` view button opening the listing
URL. -/
def sendNotificationJS (l : ListingJS) : PushRequest :=
  { endpoint := "https://ntfy.sh/charlottecraig".data
    body := l.title ++ " (".data ++
      (if l.price = [] then ("Unknown Price".data) else l.price) ++ ") ".data ++
      l.city
    titleHeader := "New Craigslist Listing Alert".data
    priority := "high".data
    actions := some ("view, Open Listing, ".data ++ l.listing_url ++
      ", clear=true".data) }

/-- JS `insertListing`: runs the shared `ON CONFLICT DO NOTHING` insert, and
inside the statement's callback notifies — and marks as notified — only when
`this.changes > 0` and the price qualifies. Returns the updated table and
the notifications dispatched by this call. -/
def insertListingJS (db : List RowJS) (l : ListingJS) : List RowJS × List PushRequest :=
  let present := decide (l.listing_url ∈ db.map RowJS.listing_url)
  let db1 := if present then db else db ++ [rowOfJS l]
  let changes : Nat := if present then 0 else 1
  if 0 < changes then
    if priceQualifiesJS l.price then
      (markAsNotified db1 l.listing_url, [sendNotificationJS l])
    else (db1, [])
  else (db1, [])

/-- JS `processListings`: every scraped listing is handed to
`insertListing`. -/
def processJS : List RowJS → List ListingJS → List RowJS × List PushRequest
  | db, [] => (db, [])
  | db, l :: rest =>
    let r1 := insertListingJS db l
    let r2 := processJS r1.1 rest
    (r2.1, r1.2 ++ r2.2)

/-- Outcome of the Go extractor on one element: the element is skipped when
the anchor's `href` is missing (`return` inside the `Each` callback); it
panics when `strings.Split(metaText, "·")[1]` indexes past the end of the
split result; otherwise it yields a listing. -/
inductive ElemResult where
  | skipped : ElemResult
  | panicked : ElemResult
  | ok : ListingGo → ElemResult
deriving DecidableEq

/-- The per-element body of Go `scrapeListings`' `Each` callback: title from
the `title` attribute with fallback `"No title"`; skip when the `href` is
absent; trim the price and meta texts; take index 1 of the meta text split on
`'·'` (an out-of-range access — a panic — when the split has fewer than two
parts); `Posted` is `time.Now()`, the observation time `now`. -/
def extractElemGo (now : Int) (e : Element) : ElemResult :=
  match e.href with
  | none => ElemResult.skipped
  | some link =>
    match (splitCh '·' (trimStr (e.metaText.getD []))).get? 1 with
    | none => ElemResult.panicked
    | some city =>
      ElemResult.ok
        { title := e.titleAttr.getD ("No title".data)
          price := trimStr (e.priceText.getD [])
          city := trimStr city
          posted := now
          listingURL := link }

/-- Go `scrapeListings`' extraction pass over all matching elements. A panic
in any element aborts the whole pass (indeed the whole process), modelled as
`none`; skipped elements contribute nothing; the rest appear in document
order. -/
def extractGo (now : Int) : List Element → Option (List ListingGo)
  | [] => some []
  | e :: es =>
    match extractElemGo now e with
    | ElemResult.panicked => none
    | ElemResult.skipped => extractGo now es
    | ElemResult.ok l => (extractGo now es).map (fun ls => l :: ls)

/-- The per-element body of JS `scrapeListings`' `page.evaluate`: every field
falls back to a default under JS truthiness (`|| 'No title'`, missing
children giving `''`, `split[1] ? ... : 'Unknown City'`,
`link ? link : ''`), and the element is always pushed — there is no skip. -/
def extractElemJS (e : Element) : ListingJS :=
  let title :=
    match e.titleAttr with
    | some t => if t = [] then ("No title".data) else t
    | none => "No title".data
  let price := match e.priceText with | some t => trimStr t | none => []
  let metaText := match e.metaText with | some t => trimStr t | none => []
  let parts := splitCh '路' metaText
  let city :=
    match parts.get? 1 with
    | some c => if c = [] then ("Unknown City".data) else trimStr c
    | none => "Unknown City".data
  let posted :=
    match parts.get? 0 with
    | some p => if p = [] then [] else trimStr p
    | none => []
  let link := match e.href with | some l => l | none => []
  { title := title, price := price, city := city, posted := posted,
    listing_url := if link = [] then [] else link }

/-- JS `scrapeListings` extraction: map over every matching element. -/
def extractJS (es : List Element) : List ListingJS := es.map extractElemJS

/-- The Go inter-cycle delay, `time.Duration(2+len(listings)%3) * time.Second`,
in seconds. -/
def delaySeconds (n : Nat) : Nat := 2 + n % 3

/-- The per-listing loop of Go `main` (insert, on error log and `continue`,
otherwise notify when the price qualifies), parameterised by an oracle `errs`
saying which inserts fail at the database level. Returns the table, the
notifications dispatched in order, and the error log lines. -/
def processGo (errs : ListingGo → Bool) : List Row → List ListingGo →
    List Row × List PushRequest × List Str
  | db, [] => (db, [], [])
  | db, l :: rest =>
    if errs l then
      let r := processGo errs db rest
      (r.1, r.2.1, "Failed to insert listing".data :: r.2.2)
    else
      let r := processGo errs (insertListing db l).1 rest
      if priceQualifiesGo l.price then
        (r.1, sendNotificationGo (goMessage l) :: r.2.1, r.2.2)
      else r

/-- Observable behaviour of one iteration of Go `main`'s ticker loop. -/
structure CycleTrace where
  scrapeErrorLogged : Bool
  notifications : List PushRequest
  responseLogs : List Str
  insertLogs : List Str
  ranExpiry : Bool
  slept : Bool
  delay : Nat
deriving DecidableEq

/-- One iteration of Go `main`'s ticker loop. A scrape error is logged and
`continue`s: no extraction results are processed, no expiry runs, and the
`time.Sleep` at the end of the iteration is skipped. On success every listing
is processed, `deleteOldListings` runs once afterwards, and the loop sleeps
for `delaySeconds` of the number of listings. `statuses` gives the HTTP
status each dispatched notification receives. -/
def runCycleGo (now : Int) (errs : ListingGo → Bool) (statuses : PushRequest → Nat)
    (db : List Row) (scraped : Except Str (List ListingGo)) : List Row × CycleTrace :=
  match scraped with
  | Except.error _ =>
    (db, { scrapeErrorLogged := true, notifications := [], responseLogs := [],
           insertLogs := [], ranExpiry := false, slept := false, delay := 0 })
  | Except.ok listings =>
    let r := processGo errs db listings
    (deleteOldListings now r.1,
     { scrapeErrorLogged := false
       notifications := r.2.1
       responseLogs := r.2.1.map (fun q => handleResponseGo (statuses q) q.body)
       insertLogs := r.2.2
       ranExpiry := true
       slept := true
       delay := delaySeconds listings.length })

/-- Go `main`'s ticker loop over a stream of scrape outcomes: each tick runs
one cycle on the table left by the previous one; the loop itself never
stops. -/
def runLoopGo (now : Int) (errs : ListingGo → Bool) (statuses : PushRequest → Nat) :
    List Row → List (Except Str (List ListingGo)) → List Row × List CycleTrace
  | db, [] => (db, [])
  | db, sc :: rest =>
    let r1 := runCycleGo now errs statuses db sc
    let r2 := runLoopGo now errs statuses r1.1 rest
    (r2.1, r1.2 :: r2.2)

/-- Substring containment, used to state what a notification body carries. -/
def strContains (s sub : Str) : Prop := ∃ a b, s = a ++ sub ++ b
/-- A concrete qualifying listing used in concrete instances below. -/
def lFree : ListingGo :=
  { title := "Couch".data, price := "Free".data, city := "Charlotte".data,
    posted := 0, listingURL := "https://x/1".data }

/-- A concrete element with no anchor (no detail link). -/
def eNoLink : Element :=
  { titleAttr := some ("Sofa".data), href := none,
    priceText := some ("$5".data), metaText := some ("1h ago 路 Charlotte".data) }

/-- A concrete element whose meta text contains no separator. -/
def eNoSep : Element :=
  { titleAttr := some ("Bike".data), href := some ("https://x/2".data),
    priceText := some ("$10".data), metaText := some ("posted just now".data) }

/-- A concrete fully well-formed element. -/
def eFull : Element :=
  { titleAttr := some ("Lamp".data), href := some ("https://x/3".data),
    priceText := some ("$7".data), metaText := some ("3 min ago · Matthews".data) }

/-- A concrete JS listing with an empty (unknown) price. -/
def lJay : ListingJS :=
  { title := "Desk".data, price := [], city := "Matthews".data,
    posted := "3 min ago".data, listing_url := "https://x/9".data }

/-- Overwrite a Go listing's observation time. -/
def setPosted (t : Int) (l : ListingGo) : ListingGo := { l with posted := t }

/-- In the Go extractor, a listing is only produced from an element whose
anchor carries an `href`, and the listing's URL is exactly that `href`. -/
theorem extractElemGo_ok_href :
    ∀ (now : Int) (e : Element) (l : ListingGo),
    extractElemGo now e = ElemResult.ok l → e.href = some l.listingURL := by
  intro now e l h
  unfold extractElemGo at h
  cases he : e.href with
  | none => rw [he] at h; exact absurd h (by simp)
  | some link =>
    rw [he] at h
    cases hs : (splitCh '·' (trimStr (e.metaText.getD []))).get? 1 with
    | none => rw [hs] at h; exact absurd h (by simp)
    | some city =>
      rw [hs] at h
      dsimp only at h
      rw [← ElemResult.ok.inj h]

/-- The Go extractor takes the same branch on an element whatever the
observation time; only the `posted` field of a produced listing records the
time. -/
theorem extractElemGo_time :
    ∀ (t1 t2 : Int) (e : Element),
    extractElemGo t2 e =
      match extractElemGo t1 e with
      | ElemResult.skipped => ElemResult.skipped
      | ElemResult.panicked => ElemResult.panicked
      | ElemResult.ok l => ElemResult.ok (setPosted t2 l) := by
  intro t1 t2 e
  unfold extractElemGo setPosted
  cases e.href with
  | none => rfl
  | some link =>
    cases (splitCh '·' (trimStr (e.metaText.getD []))).get? 1 with
    | none => rfl
    | some city => rfl

/-- Claim C1 (violation in the Go code): a candidate whose `listingURL`
already exists in the table — the insert reports zero changed rows — is
still notified by the Go loop when its price qualifies, because `main`
checks only the price and not whether the insert created the row. -/
theorem goLoop_renotifies_existing_listing :
    (processGo (fun _ => false) [rowOfGo lFree] [lFree]).2.1 =
      [sendNotificationGo (goMessage lFree)] ∧
    (insertListing [rowOfGo lFree] lFree).2 = 0 := by decide

/-- Claim C2: inserting two records with the same `listingURL` into a table
not yet containing that URL leaves exactly one row for it, that row carries
the first record's fields, the first insert reports one changed row and the
second reports zero. -/
theorem insert_same_url_twice_unique :
    ∀ (db : List Row) (l1 l2 : ListingGo),
    l2.listingURL = l1.listingURL →
    l1.listingURL ∉ db.map Row.listingURL →
    ((insertListing (insertListing db l1).1 l2).1.filter
        (fun r => decide (r.listingURL = l1.listingURL)) = [rowOfGo l1]) ∧
    (insertListing (insertListing db l1).1 l2).2 = 0 ∧
    (insertListing db l1).2 = 1 := by
  intro db l1 l2 hurl hnew
  have h1 : insertListing db l1 = (db ++ [rowOfGo l1], 1) := by
    simp [insertListing, hnew]
  have h2 : insertListing (db ++ [rowOfGo l1]) l2 = (db ++ [rowOfGo l1], 0) := by
    simp [insertListing, hurl, rowOfGo]
  rw [h1]
  have hnil : db.filter (fun r => decide (r.listingURL = l1.listingURL)) = [] := by
    rw [List.filter_eq_nil_iff]
    intro r hr
    simp only [decide_eq_true_eq]
    intro heq
    exact hnew (List.mem_map.mpr ⟨r, hr, heq⟩)
  refine ⟨?_, ?_, rfl⟩
  · show ((insertListing (db ++ [rowOfGo l1]) l2).1.filter
        (fun r => decide (r.listingURL = l1.listingURL)) = [rowOfGo l1])
    rw [h2]
    show ((db ++ [rowOfGo l1]).filter
        (fun r => decide (r.listingURL = l1.listingURL)) = [rowOfGo l1])
    rw [List.filter_append, hnil]
    simp [rowOfGo]
  · show (insertListing (db ++ [rowOfGo l1]) l2).2 = 0
    rw [h2]

/-- Concrete instance of `insert_same_url_twice_unique` on an initially empty
table. -/
theorem insert_same_url_twice_unique_witness :
    ((insertListing (insertListing [] lFree).1 lFree).1.filter
        (fun r => decide (r.listingURL = lFree.listingURL)) = [rowOfGo lFree]) ∧
    (insertListing (insertListing [] lFree).1 lFree).2 = 0 ∧
    (insertListing [] lFree).2 = 1 :=
  insert_same_url_twice_unique [] lFree lFree rfl (by decide)

/-- Claim C3 (counterexample to the claim as stated): the JS scraper does not
skip an element lacking the detail link — it extracts a record with an empty
`listing_url` and `processListings` hands that record to the store's insert,
which stores it. -/
theorem js_missing_link_reaches_store :
    (extractElemJS eNoLink).listing_url = [] ∧
    (processJS [] (extractJS [eNoLink])).1 = [rowOfJS (extractElemJS eNoLink)] := by
  decide

/-- Claim C3 (amended): the Go extractor silently skips every element whose
detail link is absent, and every listing it passes on carries the `href` of
some input element as its URL; the JS extractor instead keeps such an
element, producing a record whose `listing_url` is the empty string. -/
theorem missing_link_handling :
    (∀ (now : Int) (e : Element), e.href = none →
      extractElemGo now e = ElemResult.skipped) ∧
    (∀ (now : Int) (es : List Element) (ls : List ListingGo),
      extractGo now es = some ls → ∀ l ∈ ls, ∃ e ∈ es, e.href = some l.listingURL) ∧
    (∀ e : Element, e.href = none → (extractElemJS e).listing_url = []) := by
  refine ⟨?_, ?_, ?_⟩
  · intro now e h
    unfold extractElemGo
    rw [h]
  · intro now es
    induction es with
    | nil =>
      intro ls h l hl
      simp only [extractGo, Option.some.injEq] at h
      subst h
      simp at hl
    | cons e es ih =>
      intro ls h l hl
      rw [extractGo] at h
      cases hee : extractElemGo now e with
      | panicked => rw [hee] at h; cases h
      | skipped =>
        rw [hee] at h
        obtain ⟨e1, he1, hh⟩ := ih ls h l hl
        exact ⟨e1, List.mem_cons_of_mem _ he1, hh⟩
      | ok l0 =>
        rw [hee] at h
        obtain ⟨ls0, hls0, hcons⟩ := Option.map_eq_some'.mp h
        subst hcons
        rcases List.mem_cons.mp hl with rfl | hmem
        · exact ⟨e, List.mem_cons_self e es, extractElemGo_ok_href now e l hee⟩
        · obtain ⟨e1, he1, hh⟩ := ih ls0 hls0 l hmem
          exact ⟨e1, List.mem_cons_of_mem _ he1, hh⟩
  · intro e h
    simp [extractElemJS, h]

/-- Concrete instance of `missing_link_handling` at a linkless element and a
well-formed singleton input. -/
theorem missing_link_handling_witness :
    extractElemGo 0 eNoLink = ElemResult.skipped ∧
    (extractElemJS eNoLink).listing_url = [] ∧
    (∃ e ∈ [eFull], e.href =
      some (ListingGo.listingURL
        { title := "Lamp".data, price := "$7".data, city := "Matthews".data,
          posted := 0, listingURL := "https://x/3".data })) :=
  ⟨missing_link_handling.1 0 eNoLink rfl,
   missing_link_handling.2.2 eNoLink rfl,
   missing_link_handling.2.1 0 [eFull]
     [{ title := "Lamp".data, price := "$7".data, city := "Matthews".data,
        posted := 0, listingURL := "https://x/3".data }] (by decide) _ (by decide)⟩

/-- Claim C4 (violation in the Go code): on an element whose meta text has
no `'·'` separator the split has a single part, so the Go extractor's access
at index 1 is past the end of the split result: an out-of-range panic rather
than a handled extraction failure. -/
theorem go_meta_without_delimiter_panics :
    extractElemGo 0 eNoSep = ElemResult.panicked ∧
    (splitCh '·' (trimStr ("posted just now".data))).length = 1 := by decide

/-- Claim C5 (counterexample to the claim as stated): two calls of the Go
extraction on the same fixed input at different observation times differ,
because `Posted` is `time.Now()` at the moment of the call. -/
theorem extractGo_posted_differs :
    extractGo 0 [eFull] ≠ extractGo 1 [eFull] := by decide

/-- Claim C5 (amended): on a fixed input the Go extraction is deterministic
up to the `posted` field — overwriting every `posted` with the second call's
observation time turns the first call's result into the second call's
result, fields and order included. -/
theorem extract_deterministic_up_to_posted :
    ∀ (t1 t2 : Int) (es : List Element),
    (extractGo t1 es).map (List.map (setPosted t2)) = extractGo t2 es := by
  intro t1 t2 es
  induction es with
  | nil => rfl
  | cons e es ih =>
    simp only [extractGo]
    rw [extractElemGo_time t1 t2 e]
    cases hee : extractElemGo t1 e with
    | skipped => exact ih
    | panicked => rfl
    | ok l =>
      rw [← ih]
      cases extractGo t1 es with
      | none => rfl
      | some ls => rfl

/-- Claim C6: for every number of candidates seen in a cycle, the Go
inter-cycle delay `2 + n % 3` seconds lies in the half-open interval
`[2, 2 + 3) = [2, 5)`. -/
theorem delay_within_bounds : ∀ n : Nat, 2 ≤ delaySeconds n ∧ delaySeconds n < 5 := by
  intro n
  unfold delaySeconds
  omega

/-- Claim C7 (counterexample to one conjunct): on a scrape error the Go loop
logs and `continue`s, which skips the `time.Sleep` delay step as well — the
cycle does not proceed to the post-cycle delay. -/
theorem fetch_error_skips_sleep :
    (runCycleGo 0 (fun _ => false) (fun _ => 200) []
        (Except.error ("failed to load the page".data))).2.scrapeErrorLogged = true ∧
    (runCycleGo 0 (fun _ => false) (fun _ => 200) []
        (Except.error ("failed to load the page".data))).2.slept = false := by decide

/-- Claim C7 (amended): when the scrape fails, the Go loop logs the error and
abandons the whole cycle — no inserts, no notifications, no expiry, and no
post-cycle delay — leaving the table unchanged, and the loop continues with
the remaining ticks unaffected. -/
theorem fetch_error_abandons_cycle :
    ∀ (now : Int) (errs : ListingGo → Bool) (statuses : PushRequest → Nat)
      (db : List Row) (msg : Str) (rest : List (Except Str (List ListingGo))),
    runCycleGo now errs statuses db (Except.error msg) =
      (db, { scrapeErrorLogged := true, notifications := [], responseLogs := [],
             insertLogs := [], ranExpiry := false, slept := false, delay := 0 }) ∧
    runLoopGo now errs statuses db (Except.error msg :: rest) =
      ((runLoopGo now errs statuses db rest).1,
       { scrapeErrorLogged := true, notifications := [], responseLogs := [],
         insertLogs := [], ranExpiry := false, slept := false, delay := 0 } ::
         (runLoopGo now errs statuses db rest).2) := by
  intro now errs statuses db msg rest
  exact ⟨rfl, rfl⟩

/-- Claim C8: a row survives `deleteOldListings` exactly when it was in the
table and its `posted` time is not older than one hour before `now` — the
criterion never consults `notified`, which may hold any value in `r`; and in
a successful cycle the expiry runs exactly once, on the table produced by
processing all candidates (after all inserts and notifications). -/
theorem expiry_criterion_and_order :
    ∀ (now : Int) (db : List Row) (r : Row),
    (r ∈ deleteOldListings now db ↔ r ∈ db ∧ ¬ r.posted < now - 3600) ∧
    ∀ (errs : ListingGo → Bool) (statuses : PushRequest → Nat) (ls : List ListingGo),
      (runCycleGo now errs statuses db (Except.ok ls)).1 =
        deleteOldListings now (processGo errs db ls).1 ∧
      (runCycleGo now errs statuses db (Except.ok ls)).2.ranExpiry = true := by
  intro now db r
  constructor
  · simp [deleteOldListings, List.mem_filter]
  · intro errs statuses ls
    exact ⟨rfl, rfl⟩

/-- Claim C9: the JS notifier's body carries the record's title, its price
(or `"Unknown Price"` when the price is empty) and its city; the POST goes to
the fixed push endpoint with a title header, a high-priority hint and a view
action opening the listing URL; the Go handler answers a non-200 status by
producing only a log line; a single insert dispatches at most one request
(no retry); and the table a cycle produces is independent of the HTTP
statuses the notifications receive. -/
theorem notification_shape_and_soft_failure :
    ∀ (l : ListingJS) (status : Nat) (m : Str) (now : Int)
      (errs : ListingGo → Bool) (st1 st2 : PushRequest → Nat)
      (db : List Row) (dbj : List RowJS) (sc : Except Str (List ListingGo)),
    status ≠ 200 →
    strContains (sendNotificationJS l).body l.title ∧
    strContains (sendNotificationJS l).body
      (if l.price = [] then ("Unknown Price".data) else l.price) ∧
    strContains (sendNotificationJS l).body l.city ∧
    (sendNotificationJS l).endpoint = "https://ntfy.sh/charlottecraig".data ∧
    (sendNotificationJS l).titleHeader = "New Craigslist Listing Alert".data ∧
    (sendNotificationJS l).priority = "high".data ∧
    (sendNotificationJS l).actions =
      some ("view, Open Listing, ".data ++ l.listing_url ++ ", clear=true".data) ∧
    handleResponseGo status m =
      "Failed to send notification: Status code ".data ++ (Nat.repr status).data ∧
    (insertListingJS dbj l).2.length ≤ 1 ∧
    (runCycleGo now errs st1 db sc).1 = (runCycleGo now errs st2 db sc).1 := by
  intro l status m now errs st1 st2 db dbj sc hst
  refine ⟨?_, ?_, ?_, rfl, rfl, rfl, rfl, ?_, ?_, ?_⟩
  · exact ⟨[], " (".data ++ (if l.price = [] then ("Unknown Price".data) else l.price) ++
      ") ".data ++ l.city, by simp [sendNotificationJS]⟩
  · exact ⟨l.title ++ " (".data, ") ".data ++ l.city, by simp [sendNotificationJS]⟩
  · exact ⟨l.title ++ " (".data ++
      (if l.price = [] then ("Unknown Price".data) else l.price) ++ ") ".data, [],
      by simp [sendNotificationJS]⟩
  · simp [handleResponseGo, hst]
  · simp only [insertListingJS]
    repeat' split
    all_goals simp
  · cases sc <;> rfl

/-- Concrete instance of `notification_shape_and_soft_failure` at an
empty-price listing and HTTP status 500. -/
theorem notification_shape_and_soft_failure_witness :
    strContains (sendNotificationJS lJay).body lJay.title ∧
    strContains (sendNotificationJS lJay).body
      (if lJay.price = [] then ("Unknown Price".data) else lJay.price) ∧
    strContains (sendNotificationJS lJay).body lJay.city ∧
    (sendNotificationJS lJay).endpoint = "https://ntfy.sh/charlottecraig".data ∧
    (sendNotificationJS lJay).titleHeader = "New Craigslist Listing Alert".data ∧
    (sendNotificationJS lJay).priority = "high".data ∧
    (sendNotificationJS lJay).actions =
      some ("view, Open Listing, ".data ++ lJay.listing_url ++ ", clear=true".data) ∧
    handleResponseGo 500 (goMessage lFree) =
      "Failed to send notification: Status code ".data ++ (Nat.repr 500).data ∧
    (insertListingJS [] lJay).2.length ≤ 1 ∧
    (runCycleGo 0 (fun _ => false) (fun _ => 200) [] (Except.ok [lFree])).1 =
      (runCycleGo 0 (fun _ => false) (fun _ => 500) [] (Except.ok [lFree])).1 :=
  notification_shape_and_soft_failure lJay 500 (goMessage lFree) 0 (fun _ => false)
    (fun _ => 200) (fun _ => 500) [] [] (Except.ok [lFree]) (by decide)

/-- Claim C10: when the database insert of a candidate fails, the Go loop
logs the failure and `continue`s: the table is untouched by the failed
candidate, no notification is dispatched for it (even a qualifying one), and
the remaining candidates of the cycle are processed exactly as if the failed
one were absent. -/
theorem insert_error_skips_record :
    ∀ (errs : ListingGo → Bool) (db : List Row) (l : ListingGo) (rest : List ListingGo),
    errs l = true →
    processGo errs db (l :: rest) =
      ((processGo errs db rest).1, (processGo errs db rest).2.1,
       "Failed to insert listing".data :: (processGo errs db rest).2.2) := by
  intro errs db l rest h
  simp [processGo, h]

/-- Concrete instance of `insert_error_skips_record`: the failing candidate
has the qualifying price `"Free"` and is still not notified. -/
theorem insert_error_skips_record_witness :
    processGo (fun _ => true) [] (lFree :: [lFree]) =
      ((processGo (fun _ => true) [] [lFree]).1,
       (processGo (fun _ => true) [] [lFree]).2.1,
       "Failed to insert listing".data :: (processGo (fun _ => true) [] [lFree]).2.2) :=
  insert_error_skips_record (fun _ => true) [] lFree [lFree] rfl

end Craigslist
